import Mathlib

/-!
Verification of the ralphy parallel AI-agent orchestrator.

This file gives a shallow embedding, in Lean, of the core functions of the
repository — the output classifier, the stream-json result and error parsers,
the tmux driver's polling decision and session naming, the parallel
scheduler's failure memoization, cleanup policy and final merge phase, the
merge pipeline, and the state registry — and proves the stated properties
about them.

Conventions of the embedding:
- A line of engine output is modelled by its JSON parse outcome: `none` for a
  line that is not a JSON object (or fails to parse), `some j` for a parsed
  object, of which only the fields the code inspects are retained.
- JavaScript truthiness on strings (empty string is falsy) is modelled by the
  explicit helpers `jsOrOpt` and `jsOrStr`; absent fields are `Option.none`.
- Effectful steps (file system, subprocesses) are modelled by explicit
  parameters carrying their observed outcomes.
-/

namespace Ralphy

/-- Model of the JSON `usage` object carried by stream-json result records. -/
structure UsageJson where
  input_tokens : Option Int
  output_tokens : Option Int
deriving DecidableEq

/-- Model of the JSON `error` object carried by stream-json error records. -/
structure ErrorObjJson where
  message : Option String
deriving DecidableEq

/-- Model of one parsed JSON line of engine output: exactly the fields read by
`parseStreamJsonResult`, `checkForErrors` and `detectStepFromOutput` in
src/unnamed/part_000. A field that is absent from the JSON object is `none`. -/
structure JsonLine where
  type : Option String := none
  result : Option String := none
  usage : Option UsageJson := none
  error : Option ErrorObjJson := none
  message : Option String := none
  tool : Option String := none
  name : Option String := none
  tool_name : Option String := none
  command : Option String := none
  file_path : Option String := none
  filePath : Option String := none
  path : Option String := none
  description : Option String := none
deriving DecidableEq

/-- JavaScript `a || d` for an optional string `a`: the string if present and
non-empty (truthy), otherwise the default. -/
def jsOrOpt (a : Option String) (d : String) : String :=
  match a with
  | none => d
  | some s => if s = "" then d else s

/-- JavaScript `s || d` for a plain string: `s` if non-empty, else `d`. -/
def jsOrStr (s d : String) : String :=
  if s = "" then d else s

/-- JavaScript `x || 0` for an optional number: models
`parsed.usage?.input_tokens || 0` (0 is falsy, so a present 0 and an absent
field both give 0). -/
def jsNumOr0 (a : Option Int) : Int :=
  a.getD 0

/-- Model of JavaScript `toLowerCase()` on the ASCII strings the code
compares and derives names from, using the core ASCII case mapping
character by character. -/
def jsToLowerAscii (s : String) : String :=
  String.mk (s.data.map Char.toLower)

/-- Occurrence of `pat` as a contiguous sublist of `s`. -/
def listIncludes (s pat : List Char) : Bool :=
  match s with
  | [] => pat.isEmpty
  | _ :: rest => pat.isPrefixOf s || listIncludes rest pat

/-- JavaScript substring test `s.includes(pat)`. -/
def strIncludes (s pat : String) : Bool :=
  listIncludes s.data pat.data

/-- Embedding of `isTestFile` (src/unnamed/part_000, lines 281-289): the
lower-cased path contains `.test.`, `.spec.`, `__tests__` or `_test.go`. -/
def isTestFile (filePath : String) : Bool :=
  let lower := jsToLowerAscii filePath
  strIncludes lower ".test." ||
  strIncludes lower ".spec." ||
  strIncludes lower "__tests__" ||
  strIncludes lower "_test.go"

/-- Embedding of `detectStepFromOutput` (src/unnamed/part_000, lines
295-370). The input is the parse outcome of the line: `none` covers both the
fast-path reject (line does not start with a brace) and a JSON parse failure,
which return null in the source. -/
def detectStepFromOutput (line : Option JsonLine) : Option String :=
  match line with
  | none => none
  | some parsed =>
    let toolName :=
      jsOrOpt (parsed.tool.map jsToLowerAscii)
        (jsOrOpt (parsed.name.map jsToLowerAscii)
          (jsOrOpt (parsed.tool_name.map jsToLowerAscii) ""))
    let command := jsOrOpt (parsed.command.map jsToLowerAscii) ""
    let filePath :=
      jsToLowerAscii (jsOrOpt parsed.file_path
        (jsOrOpt parsed.filePath (jsOrOpt parsed.path "")))
    let description := jsToLowerAscii (jsOrOpt parsed.description "")
    let isReadOperation :=
      toolName = "read" ∨ toolName = "glob" ∨ toolName = "grep"
    let isWriteOperation := toolName = "write" ∨ toolName = "edit"
    if isReadOperation then
      some "Reading code"
    else if strIncludes command "git commit" ∨ strIncludes description "git commit" then
      some "Committing"
    else if strIncludes command "git add" ∨ strIncludes description "git add" then
      some "Staging"
    else if strIncludes command "lint" ∨ strIncludes command "eslint" ∨
        strIncludes command "biome" ∨ strIncludes command "prettier" then
      some "Linting"
    else if strIncludes command "vitest" ∨ strIncludes command "jest" ∨
        strIncludes command "bun test" ∨ strIncludes command "npm test" ∨
        strIncludes command "pytest" ∨ strIncludes command "go test" then
      some "Testing"
    else if isWriteOperation ∧ isTestFile filePath then
      some "Writing tests"
    else if isWriteOperation then
      some "Implementing"
    else
      none

/-- Classifier written from the words of spec section 4.2: the eight
classification rules in the exact order the spec lists them, first match
wins. This definition is deliberately independent of `detectStepFromOutput`
(which is embedded from the code); the claim compares the two. -/
def specClassifierRules (line : Option JsonLine) : Option String :=
  match line with
  | none => none
  | some parsed =>
    let toolName :=
      jsOrOpt (parsed.tool.map jsToLowerAscii)
        (jsOrOpt (parsed.name.map jsToLowerAscii)
          (jsOrOpt (parsed.tool_name.map jsToLowerAscii) ""))
    let command := jsOrOpt (parsed.command.map jsToLowerAscii) ""
    let filePath :=
      jsToLowerAscii (jsOrOpt parsed.file_path
        (jsOrOpt parsed.filePath (jsOrOpt parsed.path "")))
    let description := jsToLowerAscii (jsOrOpt parsed.description "")
    if toolName = "read" ∨ toolName = "glob" ∨ toolName = "grep" then
      some "Reading code"
    else if strIncludes command "git commit" ∨ strIncludes description "git commit" then
      some "Committing"
    else if strIncludes command "git add" ∨ strIncludes description "git add" then
      some "Staging"
    else if strIncludes command "lint" ∨ strIncludes command "eslint" ∨
        strIncludes command "biome" ∨ strIncludes command "prettier" then
      some "Linting"
    else if strIncludes command "vitest" ∨ strIncludes command "jest" ∨
        strIncludes command "bun test" ∨ strIncludes command "npm test" ∨
        strIncludes command "pytest" ∨ strIncludes command "go test" then
      some "Testing"
    else if (toolName = "write" ∨ toolName = "edit") ∧ isTestFile filePath then
      some "Writing tests"
    else if toolName = "write" ∨ toolName = "edit" then
      some "Implementing"
    else
      none

/-- The parsed form of the spec scenario line with tool `Read` and file path
`src/foo.test.ts`. -/
def readTestFileLine : JsonLine :=
  { tool := some "Read", file_path := some "src/foo.test.ts" }

/-- Result triple of `parseStreamJsonResult`. -/
structure StreamResult where
  response : String
  inputTokens : Int
  outputTokens : Int
deriving DecidableEq

/-- One iteration of the `parseStreamJsonResult` loop (src/unnamed/part_000,
lines 191-202): a line that parses to a record of type `result` overwrites
the response (defaulted when falsy) and both token counts; any other line
leaves the accumulator unchanged. -/
def streamStep (acc : StreamResult) (line : Option JsonLine) : StreamResult :=
  match line with
  | none => acc
  | some parsed =>
    if parsed.type = some "result" then
      { response := jsOrOpt parsed.result "Task completed"
        inputTokens := jsNumOr0 (parsed.usage.bind UsageJson.input_tokens)
        outputTokens := jsNumOr0 (parsed.usage.bind UsageJson.output_tokens) }
    else
      acc

/-- Embedding of `parseStreamJsonResult` (src/unnamed/part_000, lines
181-205). The input is the list of parse outcomes of the non-empty lines of
the output. The accumulator starts at response `""` and token counts 0, and
the returned response falls back to `Task completed` when still empty. -/
def parseStreamJsonResult (lines : List (Option JsonLine)) : StreamResult :=
  let acc := lines.foldl streamStep ⟨"", 0, 0⟩
  { acc with response := jsOrStr acc.response "Task completed" }

/-- Selects a line exactly when it parsed to a record of type `result`. -/
def resultRecord (line : Option JsonLine) : Option JsonLine :=
  line.bind fun j => if j.type = some "result" then some j else none

/-- The triple `parseStreamJsonResult` builds from one result record. -/
def streamOfRecord (j : JsonLine) : StreamResult :=
  { response := jsOrOpt j.result "Task completed"
    inputTokens := jsNumOr0 (j.usage.bind UsageJson.input_tokens)
    outputTokens := jsNumOr0 (j.usage.bind UsageJson.output_tokens) }

/-- Embedding of `checkForErrors` (src/unnamed/part_000, lines 210-225):
return the message of the first line parsing to a record of type `error`,
chosen as `error.message`, falling through empty or absent values to
`message` and then to `Unknown error`; `none` when no such line exists. -/
def checkForErrors (lines : List (Option JsonLine)) : Option String :=
  match lines with
  | [] => none
  | line :: rest =>
    match line with
    | none => checkForErrors rest
    | some parsed =>
      if parsed.type = some "error" then
        some (jsOrOpt (parsed.error.bind ErrorObjJson.message)
          (jsOrOpt parsed.message "Unknown error"))
      else
        checkForErrors rest

/-- Selects a line exactly when it parsed to a record of type `error`. -/
def errorRecord (line : Option JsonLine) : Option JsonLine :=
  line.bind fun j => if j.type = some "error" then some j else none

/-- The message `checkForErrors` extracts from one error record. -/
def errorMessageOf (j : JsonLine) : String :=
  jsOrOpt (j.error.bind ErrorObjJson.message) (jsOrOpt j.message "Unknown error")

/-- Reading of the claim's words for the error message, with `present`
taken literally: `error.message` if the field is present (even if empty),
else the top-level `message` if present, else `Unknown error`. Used to
compare the claim against the code, which uses JavaScript truthiness. -/
def errorMessageClaimed (j : JsonLine) : String :=
  match j.error.bind ErrorObjJson.message with
  | some s => s
  | none =>
    match j.message with
    | some s => s
    | none => "Unknown error"

/-- A task as the scheduler sees it (src/unnamed/part_003 via tasks/types):
a stable identifier and a display title. -/
structure Task where
  id : String
  title : String
deriving DecidableEq

/-- One iteration of the scheduler's environment: the tasks the source
offers for the iteration (the parallel group or all remaining tasks) and the
observed per-task outcome of running an agent on it, `true` for an engine
success and `false` for a failure or a thrown error. A dry-run iteration is
the special case where every outcome reads `true` (no agent runs, so no
failure is recorded). -/
structure IterEnv where
  tasks : List Task
  ok : String → Bool

/-- Batch selection of `runParallel` (src/unnamed/part_003, lines 249 and
267): drop every task whose identifier is in `failedTaskIds`, then truncate
to `maxParallel`. -/
def selectBatch (maxParallel : Nat) (failedTaskIds : List String)
    (allTasks : List Task) : List Task :=
  (allTasks.filter fun t => !(failedTaskIds.contains t.id)).take maxParallel

/-- The failed set after processing one batch (src/unnamed/part_003, lines
304-337): the identifier of every task of the batch whose agent did not
succeed is added to `failedTaskIds`. -/
def stepFailed (maxParallel : Nat) (failedTaskIds : List String)
    (e : IterEnv) : List String :=
  failedTaskIds ++
    ((selectBatch maxParallel failedTaskIds e.tasks).filter
      fun t => !(e.ok t.id)).map Task.id

/-- The failed set held by the scheduler when iteration `k` of the batch
loop begins, starting from `failedTaskIds = failed` (initially empty in the
source). -/
def failedBefore (maxParallel : Nat) (failed : List String) :
    List IterEnv → Nat → List String
  | _, 0 => failed
  | [], _ + 1 => failed
  | e :: rest, k + 1 =>
    failedBefore maxParallel (stepFailed maxParallel failed e) rest k

/-- The batch launched at iteration `j` of the batch loop (empty when the
run has fewer iterations). -/
def batchAt (maxParallel : Nat) (failed : List String) :
    List IterEnv → Nat → List Task
  | [], _ => []
  | e :: _, 0 => selectBatch maxParallel failed e.tasks
  | e :: rest, j + 1 =>
    batchAt maxParallel (stepFailed maxParallel failed e) rest j

/-- Result of `mergeAgentBranch` as consumed by the merge pipeline
(src/unnamed/part_003, lines 399-427): success flag, conflict flag,
optional list of conflicted files, optional error message. -/
structure MergeBranchResult where
  success : Bool
  hasConflicts : Bool
  conflictedFiles : Option (List String)
  error : Option String

/-- Outcome of the merge pipeline: the `merged` and `failed` lists built by
the loop, the branches on which the merge was aborted, and the branches
force-deleted after the loop. -/
structure MergePipelineOutcome where
  merged : List String
  failed : List String
  aborted : List String
  deleted : List String
deriving DecidableEq

/-- The loop of `mergeCompletedBranches` (src/unnamed/part_003, lines
396-428), parametric in the observed result of `mergeAgentBranch` on each
branch and the observed outcome of `resolveConflictsWithAI`: a clean merge
records the branch in `merged`; a conflicted merge (conflict flag set and a
conflicted-files value present) goes to AI resolution, recording in `merged`
on success and aborting the merge and recording in `failed` otherwise; any
other failure records in `failed` directly. -/
def mergeLoop (merge : String → MergeBranchResult) (resolve : String → Bool) :
    List String → List String × List String × List String
  | [] => ([], [], [])
  | branch :: rest =>
    let r := merge branch
    let (m, f, a) := mergeLoop merge resolve rest
    if r.success then
      (branch :: m, f, a)
    else if r.hasConflicts ∧ r.conflictedFiles.isSome then
      if resolve branch then
        (branch :: m, f, a)
      else
        (m, branch :: f, branch :: a)
    else
      (m, branch :: f, a)

/-- Embedding of `mergeCompletedBranches` (src/unnamed/part_003, lines
380-446): run the loop, then force-delete exactly the branches recorded in
`merged` (lines 431-436). -/
def mergeCompletedBranches (merge : String → MergeBranchResult)
    (resolve : String → Bool) (branches : List String) :
    MergePipelineOutcome :=
  let (m, f, a) := mergeLoop merge resolve branches
  { merged := m, failed := f, aborted := a, deleted := m }

/-- The condition under which the loop sends a branch to `merged`. -/
def branchMergeOk (merge : String → MergeBranchResult)
    (resolve : String → Bool) (branch : String) : Bool :=
  (merge branch).success ||
    ((merge branch).hasConflicts && (merge branch).conflictedFiles.isSome &&
      resolve branch)

/-- Actions taken by the tail of `runParallel` (src/unnamed/part_003, lines
356-372): whether the merge pipeline was invoked, on which arguments, and
whether the starting branch was explicitly restored. -/
structure FinalPhase where
  mergeInvoked : Option (List String × String)
  restoredStartingBranch : Bool
deriving DecidableEq

/-- The effective base branch of the run (src/unnamed/part_003, line 208):
`baseBranch || startingBranch`, with the absent or empty option modelled by
the empty string. -/
def effectiveBaseBranch (baseBranch startingBranch : String) : String :=
  if baseBranch = "" then startingBranch else baseBranch

/-- Embedding of the merge-phase tail of `runParallel` (src/unnamed/part_003,
lines 356-372): when not skipping merges, not in dry run, and at least one
branch completed, the merge pipeline receives the completed branches and the
effective base branch, and afterwards the starting branch is restored iff
the branch current at that point differs from it; otherwise nothing runs. -/
def runParallelFinalPhase (skipMerge dryRun : Bool)
    (completedBranches : List String) (baseBranch startingBranch : String)
    (currentBranchAfterMerge : String) : FinalPhase :=
  if !skipMerge && !dryRun && completedBranches.length > 0 then
    { mergeInvoked :=
        some (completedBranches, effectiveBaseBranch baseBranch startingBranch)
      restoredStartingBranch :=
        currentBranchAfterMerge != startingBranch }
  else
    { mergeInvoked := none, restoredStartingBranch := false }

/-- Result of an engine run as the scheduler's cleanup step sees it
(src/unnamed/part_003, line 29: the `result` field of a
`ParallelAgentResult`, `none` when the runtime threw). Only the success flag
matters to the cleanup policy. -/
structure AIResultModel where
  success : Bool
deriving DecidableEq

/-- Cleanup decision for one agent result: the worktree is preserved for
debugging, or cleanup is requested and a left-in-place notice is emitted or
not. -/
inductive CleanupAction where
  | preserved
  | cleaned (noticeEmitted : Bool)
deriving DecidableEq

/-- JavaScript truthiness of the optional `error` string of a
`ParallelAgentResult`: present and non-empty. -/
def errTruthy (error : Option String) : Bool :=
  match error with
  | none => false
  | some s => !(s == "")

/-- Truthiness of `aiResult?.success`: false when the result is absent. -/
def aiSuccess (aiResult : Option AIResultModel) : Bool :=
  match aiResult with
  | none => false
  | some r => r.success

/-- Embedding of the worktree-cleanup block of `runParallel`
(src/unnamed/part_003, lines 339-352): nothing happens when the worktree
directory is empty; with tmux set and a failed agent the worktree is
preserved; otherwise `cleanupAgentWorktree` is requested and the notice is
emitted exactly when the provider reports `leftInPlace`. -/
def processCleanup (tmux : Bool) (worktreeDir : String)
    (error : Option String) (aiResult : Option AIResultModel)
    (leftInPlace : Bool) : Option CleanupAction :=
  if worktreeDir = "" then
    none
  else if tmux && (errTruthy error || !(aiSuccess aiResult)) then
    some CleanupAction.preserved
  else
    some (CleanupAction.cleaned leftInPlace)

/-- Outcome of one tick of the tmux polling loop: keep polling, or stop with
an exit code (`none` modelling the JavaScript NaN produced when the exit
file's contents do not parse as an integer). -/
inductive PollOutcome where
  | continuePolling
  | stop (exitCode : Option Int)
deriving DecidableEq

/-- Model of JavaScript `trim()`: strip whitespace from both ends. -/
def jsTrim (s : String) : String :=
  String.mk (((s.data.dropWhile Char.isWhitespace).reverse.dropWhile
    Char.isWhitespace).reverse)

/-- Model of `Number.parseInt(s, 10)` on an already-trimmed string: an
optional sign followed by at least one decimal digit; further characters are
ignored; `none` models NaN. -/
def jsParseInt (s : String) : Option Int :=
  let signAndRest : Int × List Char :=
    match s.data with
    | '-' :: rest => (-1, rest)
    | '+' :: rest => (1, rest)
    | rest => (1, rest)
  let digits := signAndRest.2.takeWhile Char.isDigit
  if digits.isEmpty then
    none
  else
    some (signAndRest.1 *
      Int.ofNat (digits.foldl (fun acc c => acc * 10 + (c.toNat - 48)) 0))

/-- Embedding of one tick of the `execTmuxCommand` polling loop
(src/unnamed/part_000, lines 153-168), taking the observed state of the
tick: the exit file's contents when it exists, and whether the tmux session
still exists. When the exit file exists with non-empty trimmed contents, the
loop stops with `Number.parseInt` of those contents; when the exit file does
not exist and the session has disappeared, the loop stops with exit code 1;
otherwise it polls again. -/
def pollTick (exitFileContent : Option String) (hasSession : Bool) :
    PollOutcome :=
  match exitFileContent with
  | some raw =>
    let content := jsTrim raw
    if content ≠ "" then
      PollOutcome.stop (jsParseInt content)
    else
      PollOutcome.continuePolling
  | none =>
    if !hasSession then
      PollOutcome.stop (some 1)
    else
      PollOutcome.continuePolling

/-- Embedding of the regex replace `.replace(/[^a-zA-Z0-9-]/g, "-")` used for
session names and task slugs: every character outside `[A-Za-z0-9-]` becomes
a dash. -/
def replaceNonSessionChars (s : String) : String :=
  String.mk (s.data.map fun c => if c.isAlphanum || c == '-' then c else '-')

/-- Session name derived by the tmux driver (src/unnamed/part_000, line 91):
the template string sanitized and lower-cased. -/
def tmuxSessionName (agentId taskSlug : String) : String :=
  jsToLowerAscii (replaceNonSessionChars ("ralphy-" ++ agentId ++ "-" ++ taskSlug))

/-- Session name computed and recorded by the agent runtime before invoking
the engine (src/unnamed/part_003, line 129). -/
def runtimeSessionName (agentId taskSlug : String) : String :=
  jsToLowerAscii (replaceNonSessionChars ("ralphy-" ++ agentId ++ "-" ++ taskSlug))

/-- Session name as the spec words it: the string
`ralphy-<agentId>-<taskSlug>` with every character outside `[A-Za-z0-9-]`
replaced by a dash and the whole string lower-cased. -/
def specSessionName (agentId taskSlug : String) : String :=
  jsToLowerAscii (replaceNonSessionChars ("ralphy-" ++ agentId ++ "-" ++ taskSlug))

/-- The character class `[a-z0-9-]` of the session-name regex. -/
def sessionChar (c : Char) : Bool :=
  c.isLower || c.isDigit || c == '-'

/-- Matching the regex of spec section 6 for session names,
`ralphy-` followed by a non-empty `[a-z0-9-]` block, a dash, and another
non-empty `[a-z0-9-]` block, anchored at both ends. -/
def sessionNameRegexMatch (s : String) : Prop :=
  ∃ A B : List Char,
    s.data = "ralphy-".data ++ A ++ '-' :: B ∧
    A ≠ [] ∧ B ≠ [] ∧ A.all sessionChar = true ∧ B.all sessionChar = true

/-- Agent status as in src/cli/src/execution/state.ts, lines 4-13. -/
inductive AgentStatus where
  | pending
  | running
  | completed
  | failed
deriving DecidableEq

/-- Embedding of the `AgentState` record (src/cli/src/execution/state.ts,
lines 4-13). -/
structure AgentState where
  id : String
  task : String
  status : AgentStatus
  step : String
  tmuxSession : Option String := none
  worktreeDir : Option String := none
  error : Option String := none
  lastUpdate : String
deriving DecidableEq

/-- Embedding of the summary totals (src/cli/src/execution/state.ts, lines
17-22). -/
structure StateSummary where
  total : Nat
  completed : Nat
  failed : Nat
  inProgress : Nat
deriving DecidableEq

/-- Embedding of the process-wide `RalphyState` document
(src/cli/src/execution/state.ts, lines 15-24), with the agent map as a
function from identifiers to optional records. -/
structure RalphyState where
  agents : String → Option AgentState
  summary : StateSummary
  lastUpdate : String

/-- A `Partial AgentState` patch as passed by the call sites of
`updateState`: each field is either absent from the patch (`none`) or gives
the new value. The call sites never patch `id` or `lastUpdate`. For the
optional record fields a present patch value is itself optional, mirroring a
JavaScript property explicitly set to undefined. -/
structure AgentPatch where
  task : Option String := none
  status : Option AgentStatus := none
  step : Option String := none
  tmuxSession : Option (Option String) := none
  worktreeDir : Option (Option String) := none
  error : Option (Option String) := none

/-- The record created for a missing agent on first update
(src/cli/src/execution/state.ts, lines 62-70). -/
def defaultAgentState (agentId now : String) : AgentState :=
  { id := agentId
    task := ""
    status := AgentStatus.pending
    step := "Initializing"
    lastUpdate := now }

/-- The object spread `{...existing, ...updates, lastUpdate: now}`
(src/cli/src/execution/state.ts, lines 72-76): patched fields take the
patch value, the rest keep the existing value, and `lastUpdate` is always
stamped with the current time. -/
def applyAgentPatch (existing : AgentState) (updates : AgentPatch)
    (now : String) : AgentState :=
  { id := existing.id
    task := updates.task.getD existing.task
    status := updates.status.getD existing.status
    step := updates.step.getD existing.step
    tmuxSession := updates.tmuxSession.getD existing.tmuxSession
    worktreeDir := updates.worktreeDir.getD existing.worktreeDir
    error := updates.error.getD existing.error
    lastUpdate := now }

/-- Embedding of `updateState` (src/cli/src/execution/state.ts, lines
55-80): create the agent record with defaults if missing, apply the patch
with a fresh `lastUpdate`, stamp the document's `lastUpdate`, and leave the
summary and every other agent untouched. The write of the state file is a
swallowed side effect and carries no information. -/
def updateState (s : RalphyState) (agentId : String) (updates : AgentPatch)
    (now : String) : RalphyState :=
  let existing := (s.agents agentId).getD (defaultAgentState agentId now)
  let updated := applyAgentPatch existing updates now
  { agents := fun i => if i = agentId then some updated else s.agents i
    summary := s.summary
    lastUpdate := now }

/-- A concrete registry document for exercising `updateState`. -/
def stateDemo : RalphyState :=
  { agents := fun _ => none
    summary := { total := 3, completed := 1, failed := 0, inProgress := 2 }
    lastUpdate := "t0" }

/-- A concrete patch naming only the status field. -/
def patchDemo : AgentPatch :=
  { status := some AgentStatus.running }

/-- C9 counterexample: on the single error line whose `error.message` field
is present but empty and whose top-level `message` is `boom`, the code
returns `boom` (the empty string is falsy), while the claim, which keys on
presence alone, predicts the empty string. -/
def emptyMessageErrorLine : JsonLine :=
  { type := some "error"
    error := some { message := some "" }
    message := some "boom" }

/-- Concrete merge results for the C3 witness: branch `b1` merges cleanly,
every other branch reports a conflict with one conflicted file. -/
def mergeDemo : String → MergeBranchResult := fun b =>
  if b = "b1" then
    { success := true, hasConflicts := false, conflictedFiles := none,
      error := none }
  else
    { success := false, hasConflicts := true,
      conflictedFiles := some ["src/app.ts"], error := none }

/-- Concrete resolution outcomes for the C3 witness: only the conflict on
`b2` is resolved. -/
def resolveDemo : String → Bool := fun b => b = "b2"

/-- The two-iteration run for the C2 witness: the first iteration offers
only task `t1` and its agent fails; the second iteration offers `t1` and
`t2` and every agent succeeds. -/
def scheduleDemoEnv : List IterEnv :=
  [{ tasks := [{ id := "t1", title := "Task one" }], ok := fun _ => false },
   { tasks := [{ id := "t1", title := "Task one" },
               { id := "t2", title := "Task two" }], ok := fun _ => true }]

/-- The per-character effect of sanitizing then lower-casing: characters in
`[A-Za-z0-9-]` are kept and lower-cased, everything else becomes a dash. -/
def sanChar (c : Char) : Char :=
  Char.toLower (if c.isAlphanum || c == '-' then c else '-')

/-- The parsed form of the spec scenario result line with response `ok`
and ten input and twenty output tokens. -/
def resultDemoLine : JsonLine :=
  { type := some "result"
    result := some "ok"
    usage := some { input_tokens := some 10, output_tokens := some 20 } }

/-- A parsed error line carrying a network error message. -/
def errorDemoLine : JsonLine :=
  { type := some "error", error := some { message := some "ECONNRESET" } }

/-- C1: for every input line, the step classifier evaluates the
classification rules in the exact order of spec section 4.2 with the first
match winning; in particular the read-tool rule precedes the test-file rule,
so the line with tool `Read` and file path `src/foo.test.ts` classifies as
`Reading code` and not as `Writing tests`. -/
theorem detectStep_rule_order :
    (∀ line : Option JsonLine,
      detectStepFromOutput line = specClassifierRules line) ∧
    detectStepFromOutput (some readTestFileLine) = some "Reading code" ∧
    detectStepFromOutput (some readTestFileLine) ≠ some "Writing tests" := by
  refine ⟨fun line => ?_, by decide, by decide⟩
  cases line with
  | none => rfl
  | some parsed => rfl

/-- Witness for C1 at the spec scenario line. -/
theorem detectStep_rule_order_witness :
    detectStepFromOutput (some readTestFileLine) =
      specClassifierRules (some readTestFileLine) ∧
    detectStepFromOutput (some readTestFileLine) = some "Reading code" :=
  ⟨detectStep_rule_order.1 (some readTestFileLine), detectStep_rule_order.2.1⟩

/-- C4: the merge pipeline is invoked by `runParallel` exactly when the
batch loop exits with a non-empty `completedBranches` list and neither
`skipMerge` nor `dryRun` is set, in which case it receives the completed
branches and the effective base branch and the starting branch is restored
iff the branch current after the merge differs from it; in every other case
neither the merge pipeline nor the explicit restore runs. -/
theorem runParallel_merge_phase (skipMerge dryRun : Bool)
    (completedBranches : List String)
    (baseBranch startingBranch currentBranchAfterMerge : String) :
    ((completedBranches = [] ∨ skipMerge = true ∨ dryRun = true) →
      runParallelFinalPhase skipMerge dryRun completedBranches baseBranch
          startingBranch currentBranchAfterMerge =
        { mergeInvoked := none, restoredStartingBranch := false }) ∧
    (completedBranches ≠ [] → skipMerge = false → dryRun = false →
      runParallelFinalPhase skipMerge dryRun completedBranches baseBranch
          startingBranch currentBranchAfterMerge =
        { mergeInvoked := some (completedBranches,
            effectiveBaseBranch baseBranch startingBranch)
          restoredStartingBranch := currentBranchAfterMerge != startingBranch }) := by
  constructor
  · rintro (h | h | h) <;> simp [runParallelFinalPhase, h]
  · intro h1 h2 h3
    simp [runParallelFinalPhase, h2, h3, List.length_pos.mpr h1]

/-- Witness for C4 at a concrete run: one completed branch, no skip flags,
base branch absent, current branch already the starting branch. -/
theorem runParallel_merge_phase_witness :
    runParallelFinalPhase false false ["ralphy/agent-1"] "" "main" "main" =
      { mergeInvoked := some (["ralphy/agent-1"], effectiveBaseBranch "" "main")
        restoredStartingBranch := ("main" : String) != "main" } :=
  (runParallel_merge_phase false false ["ralphy/agent-1"] "" "main" "main").2
    (by simp) rfl rfl

/-- C5: for an agent result with a non-empty worktree directory, the
worktree is preserved when tmux is set and the agent failed (a truthy error
or a missing or unsuccessful engine result); in every other case cleanup is
requested and the left-in-place notice is emitted exactly when the provider
reports `leftInPlace`. -/
theorem cleanup_policy (tmux : Bool) (worktreeDir : String)
    (error : Option String) (aiResult : Option AIResultModel)
    (leftInPlace : Bool) (h : worktreeDir ≠ "") :
    (tmux = true → (errTruthy error = true ∨ aiSuccess aiResult = false) →
      processCleanup tmux worktreeDir error aiResult leftInPlace =
        some CleanupAction.preserved) ∧
    ((tmux = false ∨ (errTruthy error = false ∧ aiSuccess aiResult = true)) →
      processCleanup tmux worktreeDir error aiResult leftInPlace =
        some (CleanupAction.cleaned leftInPlace)) := by
  constructor
  · intro ht hf
    rcases hf with hf | hf <;> simp [processCleanup, h, ht, hf]
  · rintro (hc | ⟨he, hs⟩)
    · simp [processCleanup, h, hc]
    · simp [processCleanup, h, he, hs]

/-- Witness for C5: tmux set and a thrown error preserve the worktree. -/
theorem cleanup_policy_witness :
    processCleanup true "/tmp/wt" (some "boom") none false =
      some CleanupAction.preserved :=
  (cleanup_policy true "/tmp/wt" (some "boom") none false (by decide)).1 rfl
    (Or.inl (by decide))

/-- C6: a polling tick of the tmux driver stops with the parsed integer when
the exit file exists and its trimmed contents parse as one, and stops with
exit code 1 when the exit file does not exist and the session has
disappeared. -/
theorem pollTick_exit_code (raw : String) (hasSession : Bool) (n : Int)
    (hparse : jsParseInt (jsTrim raw) = some n) :
    pollTick (some raw) hasSession = PollOutcome.stop (some n) ∧
    pollTick none false = PollOutcome.stop (some 1) := by
  constructor
  · have hne : jsTrim raw ≠ "" := by
      intro he
      rw [he] at hparse
      simp [jsParseInt] at hparse
    simp [pollTick, hne, hparse]
  · rfl

/-- Witness for C6: exit file contents `3` stop polling with exit code 3. -/
theorem pollTick_exit_code_witness :
    pollTick (some "3") true = PollOutcome.stop (some 3) ∧
    pollTick none false = PollOutcome.stop (some 1) :=
  pollTick_exit_code "3" true 3 (by decide)

/-- C10: `updateState` changes only the record of the given agent and the
timestamps: the summary and every other agent record are unchanged, the
agent's record becomes its prior value (or the creation default on first
update) patched, and under the patch every unnamed field keeps its value
while `lastUpdate` is stamped with the current time. -/
theorem updateState_frame (s : RalphyState) (agentId : String)
    (updates : AgentPatch) (now : String) :
    ((updateState s agentId updates now).summary = s.summary) ∧
    (∀ i, i ≠ agentId →
      (updateState s agentId updates now).agents i = s.agents i) ∧
    ((updateState s agentId updates now).lastUpdate = now) ∧
    ((updateState s agentId updates now).agents agentId =
      some (applyAgentPatch
        ((s.agents agentId).getD (defaultAgentState agentId now))
        updates now)) ∧
    (∀ a : AgentState,
      (applyAgentPatch a updates now).lastUpdate = now ∧
      (applyAgentPatch a updates now).id = a.id ∧
      (updates.task = none → (applyAgentPatch a updates now).task = a.task) ∧
      (updates.status = none →
        (applyAgentPatch a updates now).status = a.status) ∧
      (updates.step = none → (applyAgentPatch a updates now).step = a.step) ∧
      (updates.tmuxSession = none →
        (applyAgentPatch a updates now).tmuxSession = a.tmuxSession) ∧
      (updates.worktreeDir = none →
        (applyAgentPatch a updates now).worktreeDir = a.worktreeDir) ∧
      (updates.error = none →
        (applyAgentPatch a updates now).error = a.error)) := by
  refine ⟨rfl, ?_, rfl, ?_, ?_⟩
  · intro i hi
    simp [updateState, hi]
  · simp [updateState]
  · intro a
    refine ⟨rfl, rfl, ?_, ?_, ?_, ?_, ?_, ?_⟩ <;> intro h <;>
      simp [applyAgentPatch, h]

/-- Witness for C10 on a concrete document and patch: the other agent is
untouched, the summary is untouched, and the unpatched step field keeps its
creation default. -/
theorem updateState_frame_witness :
    (updateState stateDemo "1" patchDemo "t1").agents "2" = none ∧
    (updateState stateDemo "1" patchDemo "t1").summary = stateDemo.summary ∧
    (applyAgentPatch (defaultAgentState "1" "t1") patchDemo "t1").step =
      "Initializing" := by
  refine ⟨?_, ?_, ?_⟩
  · exact (updateState_frame stateDemo "1" patchDemo "t1").2.1 "2" (by decide)
  · exact (updateState_frame stateDemo "1" patchDemo "t1").1
  · exact ((updateState_frame stateDemo "1" patchDemo "t1").2.2.2.2
      (defaultAgentState "1" "t1")).2.2.2.2.1 rfl

/-- Supporting lemma for C8: the final response fallback is idempotent over
the per-record default. -/
theorem jsOrStr_jsOrOpt_taskCompleted (o : Option String) :
    jsOrStr (jsOrOpt o "Task completed") "Task completed" =
      jsOrOpt o "Task completed" := by
  cases o with
  | none => simp [jsOrOpt, jsOrStr]
  | some s =>
    by_cases hs : s = "" <;> simp [jsOrOpt, jsOrStr, hs]

/-- Supporting lemma for C8: the fold of `streamStep` keeps the accumulator
when no result record occurs and otherwise ends at the value built from the
last result record. -/
theorem streamStep_foldl (lines : List (Option JsonLine)) :
    ∀ acc : StreamResult,
      lines.foldl streamStep acc =
        match lines.reverse.findSome? resultRecord with
        | none => acc
        | some j => streamOfRecord j := by
  induction lines with
  | nil => intro acc; rfl
  | cons l rest ih =>
    intro acc
    rw [List.foldl_cons, ih (streamStep acc l)]
    have hrev : (l :: rest).reverse = rest.reverse ++ [l] := by simp
    rw [hrev, List.findSome?_append]
    cases hfind : rest.reverse.findSome? resultRecord with
    | some j => rfl
    | none =>
      cases l with
      | none => rfl
      | some j =>
        by_cases hj : j.type = some "result"
        · simp [streamStep, resultRecord, hj, List.findSome?, streamOfRecord,
            Option.or]
        · simp [streamStep, resultRecord, hj, List.findSome?, Option.or]

/-- C8: `parseStreamJsonResult` returns the response text and the two token
counts of the last line parsing to a record of kind `result`, with the
response defaulting to `Task completed` when absent or empty and the token
counts defaulting to 0; lines that are not valid JSON or not of kind
`result` do not affect the result. -/
theorem parseStreamJson_last_result (lines : List (Option JsonLine)) :
    parseStreamJsonResult lines =
      match lines.reverse.findSome? resultRecord with
      | none =>
        { response := "Task completed", inputTokens := 0, outputTokens := 0 }
      | some j => streamOfRecord j := by
  show (let acc := lines.foldl streamStep ⟨"", 0, 0⟩
    { acc with response := jsOrStr acc.response "Task completed" }) = _
  rw [streamStep_foldl lines ⟨"", 0, 0⟩]
  cases hfind : lines.reverse.findSome? resultRecord with
  | none => rfl
  | some j =>
    show { streamOfRecord j with
      response := jsOrStr (streamOfRecord j).response "Task completed" } = _
    have := jsOrStr_jsOrOpt_taskCompleted j.result
    simp [streamOfRecord, this]

/-- Witness for C8 at the spec token-parse scenario: a result line followed
by an unrelated line yields response `ok` and token counts 10 and 20. -/
theorem parseStreamJson_last_result_witness :
    parseStreamJsonResult [some resultDemoLine, none] =
      { response := "ok", inputTokens := 10, outputTokens := 20 } :=
  (parseStreamJson_last_result [some resultDemoLine, none]).trans (by decide)

/-- The claim as stated fails on `emptyMessageErrorLine`: the code and the
claimed present-field selection disagree. -/
theorem checkForErrors_claim_counterexample :
    checkForErrors [some emptyMessageErrorLine] = some "boom" ∧
    errorMessageClaimed emptyMessageErrorLine = "" ∧
    checkForErrors [some emptyMessageErrorLine] ≠
      some (errorMessageClaimed emptyMessageErrorLine) :=
  ⟨by decide, by decide, by decide⟩

/-- C9 amended: `checkForErrors` returns the message of the first line
parsing to a record of kind `error`, chosen as `error.message` if present
and non-empty, else the top-level `message` field if present and non-empty,
else `Unknown error`; when no line parses to an error record it returns
null. -/
theorem checkForErrors_first_error (lines : List (Option JsonLine)) :
    checkForErrors lines = (lines.findSome? errorRecord).map errorMessageOf := by
  induction lines with
  | nil => rfl
  | cons l rest ih =>
    cases l with
    | none =>
      simpa [checkForErrors, errorRecord, List.findSome?] using ih
    | some j =>
      by_cases hj : j.type = some "error"
      · simp [checkForErrors, errorRecord, hj, errorMessageOf, List.findSome?]
      · simpa [checkForErrors, errorRecord, hj, List.findSome?] using ih

/-- Witness for the amended C9: a non-JSON line followed by an error line
yields that line's error message. -/
theorem checkForErrors_first_error_witness :
    checkForErrors [none, some errorDemoLine] = some "ECONNRESET" :=
  (checkForErrors_first_error [none, some errorDemoLine]).trans (by decide)

/-- Supporting lemma for C3: the merge loop computes three filters of the
input branch list, for success, failure, and aborted merges. -/
theorem mergeLoop_eq_filters (merge : String → MergeBranchResult)
    (resolve : String → Bool) (branches : List String) :
    mergeLoop merge resolve branches =
      (branches.filter (branchMergeOk merge resolve),
       branches.filter (fun b => !(branchMergeOk merge resolve b)),
       branches.filter (fun b =>
         !(merge b).success && (merge b).hasConflicts &&
           (merge b).conflictedFiles.isSome && !(resolve b))) := by
  induction branches with
  | nil => rfl
  | cons b rest ih =>
    simp only [mergeLoop, ih, List.filter_cons]
    cases hs : (merge b).success with
    | true => simp [branchMergeOk, hs]
    | false =>
      cases hc : (merge b).hasConflicts with
      | false => simp [branchMergeOk, hs, hc]
      | true =>
        cases hcf : (merge b).conflictedFiles.isSome with
        | false => simp [branchMergeOk, hs, hc, hcf]
        | true =>
          cases hr : resolve b with
          | true => simp [branchMergeOk, hs, hc, hcf, hr]
          | false => simp [branchMergeOk, hs, hc, hcf, hr]

/-- C3: every branch processed by the merge pipeline ends up in exactly one
of `merged` and `failed`: in `merged` exactly when the merge is clean or the
AI conflict resolution succeeds, in `failed` otherwise; a failed conflict
resolution is also recorded among the aborted merges; and exactly the
branches in `merged` are force-deleted after the loop. -/
theorem mergeCompletedBranches_partition (merge : String → MergeBranchResult)
    (resolve : String → Bool) (branches : List String) :
    (mergeCompletedBranches merge resolve branches).merged =
      branches.filter (branchMergeOk merge resolve) ∧
    (mergeCompletedBranches merge resolve branches).failed =
      branches.filter (fun b => !(branchMergeOk merge resolve b)) ∧
    (mergeCompletedBranches merge resolve branches).aborted =
      branches.filter (fun b =>
        !(merge b).success && (merge b).hasConflicts &&
          (merge b).conflictedFiles.isSome && !(resolve b)) ∧
    (mergeCompletedBranches merge resolve branches).deleted =
      (mergeCompletedBranches merge resolve branches).merged ∧
    (∀ b ∈ branches,
      (b ∈ (mergeCompletedBranches merge resolve branches).merged ∧
        b ∉ (mergeCompletedBranches merge resolve branches).failed) ∨
      (b ∈ (mergeCompletedBranches merge resolve branches).failed ∧
        b ∉ (mergeCompletedBranches merge resolve branches).merged)) := by
  have hloop := mergeLoop_eq_filters merge resolve branches
  have hm : (mergeCompletedBranches merge resolve branches).merged =
      branches.filter (branchMergeOk merge resolve) := by
    simp [mergeCompletedBranches, hloop]
  have hf : (mergeCompletedBranches merge resolve branches).failed =
      branches.filter (fun b => !(branchMergeOk merge resolve b)) := by
    simp [mergeCompletedBranches, hloop]
  have hab : (mergeCompletedBranches merge resolve branches).aborted =
      branches.filter (fun b =>
        !(merge b).success && (merge b).hasConflicts &&
          (merge b).conflictedFiles.isSome && !(resolve b)) := by
    simp [mergeCompletedBranches, hloop]
  have hd : (mergeCompletedBranches merge resolve branches).deleted =
      (mergeCompletedBranches merge resolve branches).merged := by
    simp [mergeCompletedBranches, hloop]
  refine ⟨hm, hf, hab, hd, ?_⟩
  intro b hb
  by_cases hok : branchMergeOk merge resolve b = true
  · left
    constructor
    · rw [hm]; exact List.mem_filter.mpr ⟨hb, hok⟩
    · rw [hf]
      intro hcontra
      have h2 := (List.mem_filter.mp hcontra).2
      rw [hok] at h2
      simp at h2
  · right
    have hok2 : branchMergeOk merge resolve b = false :=
      Bool.not_eq_true _ ▸ Bool.eq_false_iff.mpr hok
    constructor
    · rw [hf]
      refine List.mem_filter.mpr ⟨hb, ?_⟩
      simp [hok2]
    · rw [hm]
      intro hcontra
      exact hok ((List.mem_filter.mp hcontra).2)

/-- Witness for C3 on three branches: deletion equals the merged set and the
unresolved branch `b3` lands in `failed` and not in `merged`. -/
theorem mergeCompletedBranches_partition_witness :
    (mergeCompletedBranches mergeDemo resolveDemo ["b1", "b2", "b3"]).deleted =
      (mergeCompletedBranches mergeDemo resolveDemo ["b1", "b2", "b3"]).merged ∧
    (("b3" ∈ (mergeCompletedBranches mergeDemo resolveDemo ["b1", "b2", "b3"]).merged ∧
      "b3" ∉ (mergeCompletedBranches mergeDemo resolveDemo ["b1", "b2", "b3"]).failed) ∨
     ("b3" ∈ (mergeCompletedBranches mergeDemo resolveDemo ["b1", "b2", "b3"]).failed ∧
      "b3" ∉ (mergeCompletedBranches mergeDemo resolveDemo ["b1", "b2", "b3"]).merged)) :=
  ⟨(mergeCompletedBranches_partition mergeDemo resolveDemo ["b1", "b2", "b3"]).2.2.2.1,
   (mergeCompletedBranches_partition mergeDemo resolveDemo ["b1", "b2", "b3"]).2.2.2.2
     "b3" (by decide)⟩

/-- Supporting lemma for C2: a false `contains` means non-membership. -/
theorem not_mem_of_contains_eq_false {l : List String} {a : String}
    (h : l.contains a = false) : a ∉ l := by
  intro hm
  rw [List.contains, List.elem_iff.mpr hm] at h
  exact Bool.true_eq_false.mp h

/-- Supporting lemma for C2: a task selected into a batch is not in the
failed set the batch was filtered against. -/
theorem mem_selectBatch_not_failed (mp : Nat) (failed : List String)
    (ts : List Task) (t : Task) (ht : t ∈ selectBatch mp failed ts) :
    t.id ∉ failed := by
  have h1 : t ∈ ts.filter (fun t => !(failed.contains t.id)) :=
    List.take_subset mp _ ht
  have h2 := (List.mem_filter.mp h1).2
  apply not_mem_of_contains_eq_false
  simpa using h2

/-- Supporting lemma for C2: processing a batch only adds identifiers to the
failed set. -/
theorem mem_stepFailed_of_mem (mp : Nat) (failed : List String) (e : IterEnv)
    {id : String} (h : id ∈ failed) : id ∈ stepFailed mp failed e :=
  List.mem_append_left _ h

/-- Supporting lemma for C2: an identifier in the failed set stays in it for
the rest of the run. -/
theorem mem_failedBefore_of_mem (mp : Nat) (env : List IterEnv) :
    ∀ (failed : List String) (k : Nat) {id : String}, id ∈ failed →
      id ∈ failedBefore mp failed env k := by
  induction env with
  | nil =>
    intro failed k id h
    cases k <;> exact h
  | cons e rest ih =>
    intro failed k id h
    cases k with
    | zero => exact h
    | succ k => exact ih _ k (mem_stepFailed_of_mem mp failed e h)

/-- Supporting lemma for C2: the failed set grows monotonically over the
iterations of the batch loop. -/
theorem failedBefore_mono (mp : Nat) (env : List IterEnv) :
    ∀ (failed : List String) (k j : Nat), k ≤ j → ∀ {id : String},
      id ∈ failedBefore mp failed env k → id ∈ failedBefore mp failed env j := by
  induction env with
  | nil =>
    intro failed k j _ id h
    cases k <;> cases j <;> exact h
  | cons e rest ih =>
    intro failed k j hkj id h
    cases k with
    | zero =>
      cases j with
      | zero => exact h
      | succ j =>
        exact mem_failedBefore_of_mem mp rest _ j
          (mem_stepFailed_of_mem mp failed e h)
    | succ k =>
      cases j with
      | zero => omega
      | succ j => exact ih _ k j (Nat.le_of_succ_le_succ hkj) h

/-- Supporting lemma for C2: every task of the batch launched at iteration
`j` has an identifier outside the failed set current at iteration `j`. -/
theorem mem_batchAt_not_failedBefore (mp : Nat) (env : List IterEnv) :
    ∀ (failed : List String) (j : Nat) (t : Task),
      t ∈ batchAt mp failed env j → t.id ∉ failedBefore mp failed env j := by
  induction env with
  | nil =>
    intro failed j t ht
    simp [batchAt] at ht
  | cons e rest ih =>
    intro failed j t ht
    cases j with
    | zero => exact mem_selectBatch_not_failed mp failed e.tasks t ht
    | succ j => exact ih _ j t ht

/-- C2: once a task identifier is in the scheduler's failed set at iteration
`k`, no task of the batch launched at any iteration `j ≥ k` carries that
identifier: the scheduler never re-attempts a failed task within the run. -/
theorem runParallel_no_reattempt (mp : Nat) (env : List IterEnv)
    (failed : List String) (id : String) (k j : Nat) (t : Task)
    (hkj : k ≤ j) (hid : id ∈ failedBefore mp failed env k)
    (ht : t ∈ batchAt mp failed env j) : t.id ≠ id := by
  intro he
  apply mem_batchAt_not_failedBefore mp env failed j t ht
  rw [he]
  exact failedBefore_mono mp env failed k j hkj hid

/-- Witness for C2 on the two-iteration run: `t1` is failed after the first
iteration, `t2` is in the second batch, and its identifier differs from the
failed one. -/
theorem runParallel_no_reattempt_witness :
    ("t1" : String) ∈ failedBefore 2 [] scheduleDemoEnv 1 ∧
    ({ id := "t2", title := "Task two" } : Task) ∈ batchAt 2 [] scheduleDemoEnv 1 ∧
    ({ id := "t2", title := "Task two" } : Task).id ≠ "t1" := by
  have h1 : ("t1" : String) ∈ failedBefore 2 [] scheduleDemoEnv 1 := by
    simp [scheduleDemoEnv, failedBefore, stepFailed, selectBatch]
  have h2 : ({ id := "t2", title := "Task two" } : Task) ∈
      batchAt 2 [] scheduleDemoEnv 1 := by
    simp [scheduleDemoEnv, batchAt, stepFailed, selectBatch]
  exact ⟨h1, h2, runParallel_no_reattempt 2 scheduleDemoEnv [] "t1" 1 1
    { id := "t2", title := "Task two" } (Nat.le_refl 1) h1 h2⟩

/-- Supporting lemma for C7: UInt32 order reflects to the natural number
values. -/
theorem uint32_le_iff_toNat_le (a b : UInt32) : a ≤ b ↔ a.toNat ≤ b.toNat := by
  simp [UInt32.le_def, BitVec.le_def, UInt32.toNat]

/-- Supporting lemma for C7: packing a valid codepoint round-trips. -/
theorem char_toNat_ofNat (n : Nat) (h : n.isValidChar) :
    (Char.ofNat n).toNat = n := by
  simp only [Char.ofNat, dif_pos h, Char.ofNatAux, Char.toNat]
  simp [UInt32.toNat]

/-- Supporting lemma for C7: the lower-case range in codepoints. -/
theorem char_isLower_iff (c : Char) :
    c.isLower = true ↔ 97 ≤ c.toNat ∧ c.toNat ≤ 122 := by
  simp only [Char.isLower, Bool.and_eq_true, decide_eq_true_eq, ge_iff_le,
    uint32_le_iff_toNat_le, Char.toNat]
  norm_num

/-- Supporting lemma for C7: the upper-case range in codepoints. -/
theorem char_isUpper_iff (c : Char) :
    c.isUpper = true ↔ 65 ≤ c.toNat ∧ c.toNat ≤ 90 := by
  simp only [Char.isUpper, Bool.and_eq_true, decide_eq_true_eq, ge_iff_le,
    uint32_le_iff_toNat_le, Char.toNat]
  norm_num

/-- Supporting lemma for C7: the digit range in codepoints. -/
theorem char_isDigit_iff (c : Char) :
    c.isDigit = true ↔ 48 ≤ c.toNat ∧ c.toNat ≤ 57 := by
  simp only [Char.isDigit, Bool.and_eq_true, decide_eq_true_eq, ge_iff_le,
    uint32_le_iff_toNat_le, Char.toNat]
  norm_num

/-- Supporting lemma for C7: lower-casing a kept character lands in the
regex class `[a-z0-9-]`. -/
theorem sessionChar_toLower_of_keep (c : Char)
    (h : (c.isAlphanum || c == '-') = true) :
    sessionChar c.toLower = true := by
  rcases Bool.or_eq_true_iff.mp h with halnum | hdash
  · rcases Bool.or_eq_true_iff.mp
        (by simpa [Char.isAlphanum] using halnum) with halpha | hdigit
    · rcases Bool.or_eq_true_iff.mp
          (by simpa [Char.isAlpha] using halpha) with hupper | hlower
      · obtain ⟨ha1, ha2⟩ := (char_isUpper_iff c).mp hupper
        have hv : (c.toNat + 32).isValidChar := Or.inl (by omega)
        have he := char_toNat_ofNat (c.toNat + 32) hv
        have htl : c.toLower = Char.ofNat (c.toNat + 32) := by
          simp only [Char.toLower]
          rw [if_pos ⟨ha1, ha2⟩]
        rw [htl]
        simp only [sessionChar, Bool.or_eq_true]
        left; left
        rw [char_isLower_iff, he]
        omega
      · obtain ⟨ha1, ha2⟩ := (char_isLower_iff c).mp hlower
        have htl : c.toLower = c := by
          simp only [Char.toLower]
          rw [if_neg (by omega : ¬(Char.toNat c ≥ 65 ∧ Char.toNat c ≤ 90))]
        rw [htl]
        simp [sessionChar, hlower]
    · obtain ⟨ha1, ha2⟩ := (char_isDigit_iff c).mp hdigit
      have htl : c.toLower = c := by
        simp only [Char.toLower]
        rw [if_neg (by omega : ¬(Char.toNat c ≥ 65 ∧ Char.toNat c ≤ 90))]
      rw [htl]
      simp [sessionChar, hdigit]
  · have hc : c = '-' := eq_of_beq hdash
    subst hc
    decide

/-- Supporting lemma for C7: every sanitized character is in the regex
class. -/
theorem sessionChar_sanChar (c : Char) : sessionChar (sanChar c) = true := by
  unfold sanChar
  by_cases h : (c.isAlphanum || c == '-') = true
  · rw [if_pos h]
    exact sessionChar_toLower_of_keep c h
  · rw [if_neg h]
    decide

/-- Supporting lemma for C7: a non-empty string has a non-empty character
list. -/
theorem data_ne_nil_of_ne_empty (s : String) (h : s ≠ "") : s.data ≠ [] := by
  intro hd
  apply h
  cases s with
  | mk l =>
    simp only at hd
    rw [hd]

/-- Supporting lemma for C7: the character list of a derived session name is
the fixed prefix, the sanitized agent identifier, a dash, and the sanitized
task slug. -/
theorem tmuxSessionName_data (agentId taskSlug : String) :
    (tmuxSessionName agentId taskSlug).data =
      "ralphy-".data ++
        (agentId.data.map sanChar ++ '-' :: taskSlug.data.map sanChar) := by
  have hpre : "ralphy-".data.map sanChar = "ralphy-".data := by decide
  have hdash : "-".data.map sanChar = ['-'] := by decide
  show (String.mk (((("ralphy-" ++ agentId ++ "-" ++ taskSlug)).data.map
      (fun c => if c.isAlphanum || c == '-' then c else '-')).map
        Char.toLower)).data = _
  rw [List.map_map]
  have hcomp : (Char.toLower ∘ fun c =>
      if c.isAlphanum || c == '-' then c else '-') = sanChar := by
    funext c
    simp [sanChar, Function.comp]
  rw [hcomp]
  simp only [String.data_append, List.map_append]
  rw [hpre]
  rw [hdash]
  simp

/-- C7 counterexample: with an empty task slug the derived name is
`ralphy-1-`, which the session-name regex rejects (the block after the last
dash would be empty). -/
theorem tmuxSessionName_regex_counterexample :
    tmuxSessionName "1" "" = "ralphy-1-" ∧
    ¬ sessionNameRegexMatch (tmuxSessionName "1" "") := by
  constructor
  · decide
  · rintro ⟨A, B, hdata, hA, hB, -, -⟩
    have hval : (tmuxSessionName "1" "").data =
        ['r', 'a', 'l', 'p', 'h', 'y', '-', '1', '-'] := by decide
    rw [hval] at hdata
    have hlen := congrArg List.length hdata
    have hAl : 0 < A.length := List.length_pos.mpr hA
    have hBl : 0 < B.length := List.length_pos.mpr hB
    simp [List.length_append] at hlen
    omega

/-- C7 amended: for every non-empty agent identifier and non-empty task
slug, the derived session name is the template string with every character
outside `[A-Za-z0-9-]` replaced by a dash and the whole lower-cased, it
matches the session-name regex, and the name recorded by the agent runtime
before invocation equals the name the driver derives. -/
theorem tmuxSessionName_spec (agentId taskSlug : String)
    (ha : agentId ≠ "") (hb : taskSlug ≠ "") :
    tmuxSessionName agentId taskSlug = specSessionName agentId taskSlug ∧
    runtimeSessionName agentId taskSlug = tmuxSessionName agentId taskSlug ∧
    sessionNameRegexMatch (tmuxSessionName agentId taskSlug) := by
  refine ⟨rfl, rfl, ?_⟩
  refine ⟨agentId.data.map sanChar, taskSlug.data.map sanChar, ?_, ?_, ?_, ?_, ?_⟩
  · rw [tmuxSessionName_data]
    simp
  · simp [data_ne_nil_of_ne_empty agentId ha]
  · simp [data_ne_nil_of_ne_empty taskSlug hb]
  · rw [List.all_eq_true]
    intro c hc
    obtain ⟨x, _, rfl⟩ := List.mem_map.mp hc
    exact sessionChar_sanChar x
  · rw [List.all_eq_true]
    intro c hc
    obtain ⟨x, _, rfl⟩ := List.mem_map.mp hc
    exact sessionChar_sanChar x

/-- Witness for C7 on agent 1 and the slug `add-user-auth`. -/
theorem tmuxSessionName_spec_witness :
    runtimeSessionName "1" "add-user-auth" =
      tmuxSessionName "1" "add-user-auth" ∧
    sessionNameRegexMatch (tmuxSessionName "1" "add-user-auth") :=
  ⟨(tmuxSessionName_spec "1" "add-user-auth" (by decide) (by decide)).2.1,
   (tmuxSessionName_spec "1" "add-user-auth" (by decide) (by decide)).2.2⟩

end Ralphy
